import Mathlib

/-!
A verification development for the kagenti repository: a shallow embedding of
the weather-tool build-and-deploy script, the UI import form validation and
submission logic, the delete-confirmation handlers, the tool detail page
polling policy, the environment-variable import merge, and a spec-modelled
workload status normalizer, together with theorems settling the frozen claims
about them.
-/

set_option maxHeartbeats 1000000

namespace Kagenti

/-! ## The weather-tool build-and-deploy script

Embedding of the shell script that creates a Shipwright `Build`, triggers a
`BuildRun`, polls the `BuildRun` to a terminal condition, and on success
creates a `Deployment` and a `Service`.  The cluster is modelled as an
oracle: `condition k` is the `(status, reason)` pair of the BuildRun's
`Succeeded` condition that `kubectl get` would report when `ELAPSED = k`
seconds; `outputImage`/`outputDigest` are what `.status.output` reports after
success.  The script run is a pure function from that oracle to the trace of
observable actions plus the process exit code. -/

/-- `TOOL_NAME="weather-tool"` in the script. -/
def TOOL_NAME : String := "weather-tool"

/-- `TIMEOUT=600` (seconds) in the script's poll loop. -/
def TIMEOUT : Nat := 600

/-- `POLL_INTERVAL=10` (seconds) in the script's poll loop. -/
def POLL_INTERVAL : Nat := 10

/-- `BUILDRUN_NAME="${TOOL_NAME}-run-$(date +%s)"`: the workload name, the
literal `-run-`, and the current epoch seconds in decimal. -/
def buildRunName (epochSeconds : Nat) : String :=
  TOOL_NAME ++ "-run-" ++ toString epochSeconds

/-- The observable actions of the script, in the order it performs them:
resource creations (`kubectl apply`), one poll check per loop iteration, the
two failure-path messages followed by `exit 1`, and the final readiness wait
(`kubectl wait`). -/
inductive Event where
  | createBuild (name : String)
  | createBuildRun (name : String)
  | pollCheck (elapsed : Nat)
  | buildRunFailedMsg (reason : String)
  | timeoutMsg
  | createDeployment (name : String) (image : String)
  | createService (name : String)
  | waitDeploymentReady (name : String)
  deriving DecidableEq, Repr

/-- Outcome of the poll loop: `break` on `Succeeded=True`, `exit 1` on
`Succeeded=False` (carrying the condition's reason), or falling out of the
loop with `ELAPSED >= TIMEOUT`. -/
inductive PollResult where
  | succeeded
  | failed (reason : String)
  | timedOut
  deriving DecidableEq, Repr

/-- The cluster-side inputs of one script run. -/
structure ClusterEnv where
  /-- `(status, reason)` of the BuildRun's `Succeeded` condition as observed
  at a given `ELAPSED` value. -/
  condition : Nat → String × String
  /-- `.status.output.image` of the BuildRun after success. -/
  outputImage : String
  /-- `.status.output.digest` of the BuildRun after success. -/
  outputDigest : String

/-- The script's `while [ $ELAPSED -lt $TIMEOUT ]` poll loop.  Each iteration
reads the `Succeeded` condition: `"True"` breaks with success, `"False"`
exits with the reason, anything else sleeps `POLL_INTERVAL` and retries.
The `fuel` argument only bounds the recursion; with `fuel = 61` and
`ELAPSED` stepping from `0` by `10`, the fuel-exhausted base case is reached
only at `ELAPSED = 610 ≥ TIMEOUT`, where it coincides with the loop's own
exit (timeout), so the embedding is exact. -/
def pollLoopAux (condition : Nat → String × String) :
    Nat → Nat → List Event × PollResult
  | _, 0 => ([], .timedOut)
  | elapsed, fuel + 1 =>
    if elapsed < TIMEOUT then
      if (condition elapsed).1 = "True" then
        ([Event.pollCheck elapsed], .succeeded)
      else if (condition elapsed).1 = "False" then
        ([Event.pollCheck elapsed], .failed (condition elapsed).2)
      else
        let rest := pollLoopAux condition (elapsed + POLL_INTERVAL) fuel
        (Event.pollCheck elapsed :: rest.1, rest.2)
    else ([], .timedOut)

/-- The poll loop as run by the script: `ELAPSED` starts at `0`. -/
def pollLoop (condition : Nat → String × String) : List Event × PollResult :=
  pollLoopAux condition 0 61

/-- Steps 5 and 5b and 6 of the script, reached only on build success:
`kubectl apply` of the Deployment (named `TOOL_NAME`, running the BuildRun's
output image), `kubectl apply` of the Service (named `TOOL_NAME-mcp`), then
`kubectl wait` for Deployment availability. -/
def successTail (env : ClusterEnv) : List Event :=
  [Event.createDeployment TOOL_NAME env.outputImage,
   Event.createService (TOOL_NAME ++ "-mcp"),
   Event.waitDeploymentReady TOOL_NAME]

/-- One full run of the script: create the Build, create the BuildRun, run
the poll loop, then either deploy (exit 0) or stop with exit code 1.  The
final `kubectl wait ... || { ... }` swallows its own failure, so the success
path always exits 0. -/
def runScript (env : ClusterEnv) (now : Nat) : List Event × Nat :=
  let pre := [Event.createBuild TOOL_NAME, Event.createBuildRun (buildRunName now)]
  let polls := (pollLoop env.condition).1
  match (pollLoop env.condition).2 with
  | .succeeded => (pre ++ polls ++ successTail env, 0)
  | .failed r => (pre ++ polls ++ [Event.buildRunFailedMsg r], 1)
  | .timedOut => (pre ++ polls ++ [Event.timeoutMsg], 1)

/-- Every event the poll loop emits is a `pollCheck`. -/
theorem pollLoopAux_events (condition : Nat → String × String) :
    ∀ fuel elapsed e, e ∈ (pollLoopAux condition elapsed fuel).1 →
      ∃ k, e = Event.pollCheck k := by
  intro fuel
  induction fuel with
  | zero => intro elapsed e h; simp [pollLoopAux] at h
  | succ fuel ih =>
    intro elapsed e h
    simp only [pollLoopAux] at h
    split at h
    · split at h
      · simp at h; exact ⟨elapsed, h⟩
      · split at h
        · simp at h; exact ⟨elapsed, h⟩
        · simp at h
          rcases h with h | h
          · exact ⟨elapsed, h⟩
          · exact ih _ e h
    · simp at h

/-- If the poll loop reports success, some check within the timeout bound saw
the `Succeeded` condition with status `"True"`. -/
theorem pollLoopAux_succeeded (condition : Nat → String × String) :
    ∀ fuel elapsed, (pollLoopAux condition elapsed fuel).2 = PollResult.succeeded →
      ∃ k, k < TIMEOUT ∧ (condition k).1 = "True" := by
  intro fuel
  induction fuel with
  | zero => intro elapsed h; simp [pollLoopAux] at h
  | succ fuel ih =>
    intro elapsed h
    simp only [pollLoopAux] at h
    split at h
    · split at h
      · exact ⟨elapsed, by assumption, by assumption⟩
      · split at h
        · simp at h
        · exact ih _ h
    · simp at h

/-- A cluster where the build fails immediately with reason `"BuildFailed"`. -/
def failEnv : ClusterEnv :=
  { condition := fun _ => ("False", "BuildFailed")
    outputImage := ""
    outputDigest := "" }

/-- A cluster where the build succeeds on the first poll. -/
def succEnv : ClusterEnv :=
  { condition := fun _ => ("True", "Succeeded")
    outputImage := "registry.cr-system.svc.cluster.local:5000/weather-tool:v0.0.1"
    outputDigest := "sha256:abc" }

/-- A cluster where the BuildRun never reaches a terminal condition. -/
def stuckEnv : ClusterEnv :=
  { condition := fun _ => ("", "")
    outputImage := ""
    outputDigest := "" }

/-- Case analysis on membership in a script trace: an event is the Build
creation, the BuildRun creation, a poll check, or part of the tail selected
by the poll outcome. -/
theorem mem_runScript_cases (env : ClusterEnv) (now : Nat) (e : Event)
    (h : e ∈ (runScript env now).1) :
    e = Event.createBuild TOOL_NAME ∨ e = Event.createBuildRun (buildRunName now) ∨
    (∃ k, e = Event.pollCheck k) ∨
    ((pollLoop env.condition).2 = PollResult.succeeded ∧ e ∈ successTail env) ∨
    (∃ r, (pollLoop env.condition).2 = PollResult.failed r ∧
      e = Event.buildRunFailedMsg r) ∨
    ((pollLoop env.condition).2 = PollResult.timedOut ∧ e = Event.timeoutMsg) := by
  cases hres : (pollLoop env.condition).2 with
  | succeeded =>
    simp only [runScript, hres, List.mem_append, List.mem_cons,
      List.not_mem_nil, or_false] at h
    rcases h with ((h | h) | h) | h
    · exact Or.inl h
    · exact Or.inr (Or.inl h)
    · exact Or.inr (Or.inr (Or.inl (pollLoopAux_events env.condition 61 0 e h)))
    · exact Or.inr (Or.inr (Or.inr (Or.inl ⟨rfl, h⟩)))
  | failed r =>
    simp only [runScript, hres, List.mem_append, List.mem_cons,
      List.not_mem_nil, or_false] at h
    rcases h with ((h | h) | h) | h
    · exact Or.inl h
    · exact Or.inr (Or.inl h)
    · exact Or.inr (Or.inr (Or.inl (pollLoopAux_events env.condition 61 0 e h)))
    · exact Or.inr (Or.inr (Or.inr (Or.inr (Or.inl ⟨r, rfl, h⟩))))
  | timedOut =>
    simp only [runScript, hres, List.mem_append, List.mem_cons,
      List.not_mem_nil, or_false] at h
    rcases h with ((h | h) | h) | h
    · exact Or.inl h
    · exact Or.inr (Or.inl h)
    · exact Or.inr (Or.inr (Or.inl (pollLoopAux_events env.condition 61 0 e h)))
    · exact Or.inr (Or.inr (Or.inr (Or.inr (Or.inr ⟨rfl, h⟩))))

/-- C1: if the poll loop does not end in success (the terminal `Succeeded`
condition is `False`, or the poll times out), the script run contains no
Deployment creation and no Service creation; and whenever a Deployment
creation does appear in the trace, some poll within the timeout bound saw
`Succeeded=True`. -/
theorem build_gate_blocks_deploy (env : ClusterEnv) (now : Nat) :
    ((pollLoop env.condition).2 ≠ PollResult.succeeded →
      (∀ n i, Event.createDeployment n i ∉ (runScript env now).1) ∧
      (∀ n, Event.createService n ∉ (runScript env now).1)) ∧
    (∀ n i, Event.createDeployment n i ∈ (runScript env now).1 →
      ∃ k, k < TIMEOUT ∧ (env.condition k).1 = "True") := by
  constructor
  · intro hne
    constructor
    · intro n i hmem
      rcases mem_runScript_cases env now _ hmem with
        h | h | ⟨k, h⟩ | ⟨hs, _⟩ | ⟨r, _, h⟩ | ⟨_, h⟩
      · exact Event.noConfusion h
      · exact Event.noConfusion h
      · exact Event.noConfusion h
      · exact hne hs
      · exact Event.noConfusion h
      · exact Event.noConfusion h
    · intro n hmem
      rcases mem_runScript_cases env now _ hmem with
        h | h | ⟨k, h⟩ | ⟨hs, _⟩ | ⟨r, _, h⟩ | ⟨_, h⟩
      · exact Event.noConfusion h
      · exact Event.noConfusion h
      · exact Event.noConfusion h
      · exact hne hs
      · exact Event.noConfusion h
      · exact Event.noConfusion h
  · intro n i hmem
    rcases mem_runScript_cases env now _ hmem with
      h | h | ⟨k, h⟩ | ⟨hs, _⟩ | ⟨r, _, h⟩ | ⟨_, h⟩
    · exact Event.noConfusion h
    · exact Event.noConfusion h
    · exact Event.noConfusion h
    · exact pollLoopAux_succeeded env.condition 61 0 hs
    · exact Event.noConfusion h
    · exact Event.noConfusion h

/-- Witness for C1 at the concrete failing cluster. -/
theorem build_gate_blocks_deploy_witness :
    (∀ n i, Event.createDeployment n i ∉ (runScript failEnv 0).1) ∧
    (∀ n, Event.createService n ∉ (runScript failEnv 0).1) :=
  (build_gate_blocks_deploy failEnv 0).1 (by decide)

/-- Resource-creation events of the script (`kubectl apply` calls). -/
def isCreation : Event → Bool
  | .createBuild _ => true
  | .createBuildRun _ => true
  | .createDeployment _ _ => true
  | .createService _ => true
  | _ => false

/-- The step of the script an event belongs to: Build creation (0), BuildRun
creation (1), BuildRun polling (2), Deployment creation or failure exit (3),
Service creation (4), readiness wait (5). -/
def stageOf : Event → Nat
  | .createBuild _ => 0
  | .createBuildRun _ => 1
  | .pollCheck _ => 2
  | .buildRunFailedMsg _ => 3
  | .timeoutMsg => 3
  | .createDeployment _ _ => 3
  | .createService _ => 4
  | .waitDeploymentReady _ => 5

/-- Poll-loop events are creations of nothing and sit at stage 2. -/
theorem pollLoop_events_stage (condition : Nat → String × String) :
    ∀ e ∈ (pollLoop condition).1, isCreation e = false ∧ stageOf e = 2 := by
  intro e h
  obtain ⟨k, rfl⟩ := pollLoopAux_events condition 61 0 e h
  exact ⟨rfl, rfl⟩

/-- The poll-loop trace contributes nothing to the creation subtrace. -/
theorem pollLoop_filter_creation (condition : Nat → String × String) :
    (pollLoop condition).1.filter isCreation = [] := by
  rw [List.filter_eq_nil_iff]
  intro e h
  simp [(pollLoop_events_stage condition e h).1]

/-- A list all of whose elements equal a constant is pairwise `≤`. -/
theorem pairwise_le_const {c : Nat} :
    ∀ {l : List Nat}, (∀ x ∈ l, x = c) → l.Pairwise (· ≤ ·) := by
  intro l
  induction l with
  | nil => intro _; exact List.Pairwise.nil
  | cons a t ih =>
    intro h
    refine List.Pairwise.cons ?_ (ih fun x hx => h x (List.mem_cons_of_mem _ hx))
    intro b hb
    rw [h a (List.mem_cons_self a t), h b (List.mem_cons_of_mem _ hb)]

/-- The stage pattern of every script trace is sorted: stages `[0, 1]`, then
a block of `2`s, then a tail of stages `≥ 3` that is itself sorted. -/
theorem pairwise_stage_chain (B C : List Nat)
    (hB : ∀ x ∈ B, x = 2) (hC : C.Pairwise (· ≤ ·)) (hC3 : ∀ x ∈ C, 3 ≤ x) :
    (([0, 1] ++ B ++ C) : List Nat).Pairwise (· ≤ ·) := by
  rw [List.append_assoc, List.pairwise_append]
  refine ⟨by decide, ?_, ?_⟩
  · rw [List.pairwise_append]
    refine ⟨pairwise_le_const hB, hC, ?_⟩
    intro a ha b hb
    rw [hB a ha]
    exact Nat.le_trans (by norm_num) (hC3 b hb)
  · intro a ha b hb
    have ha' : a ≤ 1 := by
      simp only [List.mem_cons, List.not_mem_nil, or_false] at ha
      rcases ha with rfl | rfl <;> norm_num
    rcases List.mem_append.1 hb with hb | hb
    · rw [hB b hb]; omega
    · have := hC3 b hb; omega

/-- The mapped stages of every script trace are monotone. -/
theorem trace_stages_pairwise (env : ClusterEnv) (now : Nat) :
    ((runScript env now).1.map stageOf).Pairwise (· ≤ ·) := by
  have hB : ∀ x ∈ (pollLoop env.condition).1.map stageOf, x = 2 := by
    intro x hx
    rcases List.mem_map.1 hx with ⟨e, he, rfl⟩
    exact (pollLoop_events_stage env.condition e he).2
  cases hres : (pollLoop env.condition).2 with
  | succeeded =>
    have heq : (runScript env now).1.map stageOf
        = [0, 1] ++ (pollLoop env.condition).1.map stageOf ++ [3, 4, 5] := by
      simp [runScript, hres, successTail, stageOf]
    rw [heq]
    exact pairwise_stage_chain _ _ hB (by decide) (by decide)
  | failed r =>
    have heq : (runScript env now).1.map stageOf
        = [0, 1] ++ (pollLoop env.condition).1.map stageOf ++ [3] := by
      simp [runScript, hres, stageOf]
    rw [heq]
    exact pairwise_stage_chain _ _ hB (by decide) (by decide)
  | timedOut =>
    have heq : (runScript env now).1.map stageOf
        = [0, 1] ++ (pollLoop env.condition).1.map stageOf ++ [3] := by
      simp [runScript, hres, stageOf]
    rw [heq]
    exact pairwise_stage_chain _ _ hB (by decide) (by decide)

/-- C2: every script run creates resources in the fixed order Build, then
BuildRun, then (exactly when the poll loop succeeded) Deployment then
Service; and the stages of the whole trace are monotone -- Build creation,
BuildRun creation, all polling, Deployment creation (or failure exit),
Service creation, readiness wait -- so no later step's event ever precedes
an earlier step's event. -/
theorem script_creation_order (env : ClusterEnv) (now : Nat) :
    ((runScript env now).1.filter isCreation =
        [Event.createBuild TOOL_NAME, Event.createBuildRun (buildRunName now)] ∨
      (runScript env now).1.filter isCreation =
        [Event.createBuild TOOL_NAME, Event.createBuildRun (buildRunName now),
         Event.createDeployment TOOL_NAME env.outputImage,
         Event.createService (TOOL_NAME ++ "-mcp")]) ∧
    ((runScript env now).1.map stageOf).Pairwise (· ≤ ·) ∧
    ((pollLoop env.condition).2 = PollResult.succeeded ↔
      (runScript env now).1.filter isCreation =
        [Event.createBuild TOOL_NAME, Event.createBuildRun (buildRunName now),
         Event.createDeployment TOOL_NAME env.outputImage,
         Event.createService (TOOL_NAME ++ "-mcp")]) := by
  have hfilter := pollLoop_filter_creation env.condition
  refine ⟨?_, trace_stages_pairwise env now, ?_⟩
  · cases hres : (pollLoop env.condition).2 with
    | succeeded =>
      exact Or.inr (by
        simp [runScript, hres, successTail, List.filter_append, hfilter, isCreation])
    | failed r =>
      exact Or.inl (by
        simp [runScript, hres, List.filter_append, hfilter, isCreation])
    | timedOut =>
      exact Or.inl (by
        simp [runScript, hres, List.filter_append, hfilter, isCreation])
  · constructor
    · intro hres
      simp [runScript, hres, successTail, List.filter_append, hfilter, isCreation]
    · intro h
      cases hres : (pollLoop env.condition).2 with
      | succeeded => rfl
      | failed r =>
        rw [show (runScript env now).1.filter isCreation =
            [Event.createBuild TOOL_NAME, Event.createBuildRun (buildRunName now)] by
          simp [runScript, hres, List.filter_append, hfilter, isCreation]] at h
        simp at h
      | timedOut =>
        rw [show (runScript env now).1.filter isCreation =
            [Event.createBuild TOOL_NAME, Event.createBuildRun (buildRunName now)] by
          simp [runScript, hres, List.filter_append, hfilter, isCreation]] at h
        simp at h

/-- Witness for C2 at the concrete succeeding cluster: the full creation
order is reached. -/
theorem script_creation_order_witness :
    (runScript succEnv 7).1.filter isCreation =
      [Event.createBuild TOOL_NAME, Event.createBuildRun (buildRunName 7),
       Event.createDeployment TOOL_NAME succEnv.outputImage,
       Event.createService (TOOL_NAME ++ "-mcp")] :=
  (script_creation_order succEnv 7).2.2.mp (by decide)

/-! ## Freshness of generated BuildRun names

`BUILDRUN_NAME="${TOOL_NAME}-run-$(date +%s)"`: attempts at distinct epoch
seconds get distinct names.  The injectivity of the decimal rendering of a
natural number is established by interpreting the digit characters back into
a number. -/

/-- Numeric value of a decimal digit character. -/
def digitVal (c : Char) : Nat := c.toNat - 48

/-- Value of a big-endian list of decimal digit characters. -/
def valOfDigits (l : List Char) : Nat :=
  l.foldl (fun acc c => acc * 10 + digitVal c) 0

theorem foldl_digits_shift (l : List Char) (a : Nat) :
    l.foldl (fun acc c => acc * 10 + digitVal c) a
      = a * 10 ^ l.length + valOfDigits l := by
  induction l generalizing a with
  | nil => simp [valOfDigits]
  | cons c t ih =>
    simp only [List.foldl_cons, List.length_cons, valOfDigits]
    rw [ih (a * 10 + digitVal c), ih (0 * 10 + digitVal c)]
    ring

theorem digitVal_digitChar : ∀ d < 10, digitVal (Nat.digitChar d) = d := by decide

theorem toDigitsCore_val :
    ∀ (fuel n : Nat) (l : List Char), n < fuel →
      valOfDigits (Nat.toDigitsCore 10 fuel n l)
        = n * 10 ^ l.length + valOfDigits l := by
  intro fuel
  induction fuel with
  | zero => intro n l h; omega
  | succ fuel ih =>
    intro n l h
    simp only [Nat.toDigitsCore]
    by_cases hdiv : n / 10 = 0
    · have hn : n < 10 := by omega
      simp only [hdiv, if_true]
      have : valOfDigits (Nat.digitChar (n % 10) :: l)
          = n * 10 ^ l.length + valOfDigits l := by
        simp only [valOfDigits, List.foldl_cons, Nat.zero_mul, Nat.zero_add]
        rw [Nat.mod_eq_of_lt hn, foldl_digits_shift l (digitVal (Nat.digitChar n)),
          digitVal_digitChar n hn]
        rfl
      simpa using this
    · have h10 : 10 ≤ n := by
        by_contra hlt
        exact hdiv (Nat.div_eq_of_lt (by omega))
      have hfuel : n / 10 < fuel := by
        have h1 : n / 10 < n := Nat.div_lt_self (by omega) (by omega)
        omega
      simp only [hdiv, if_false]
      rw [ih (n / 10) (Nat.digitChar (n % 10) :: l) hfuel]
      have hc : valOfDigits (Nat.digitChar (n % 10) :: l)
          = (n % 10) * 10 ^ l.length + valOfDigits l := by
        simp only [valOfDigits, List.foldl_cons, Nat.zero_mul, Nat.zero_add]
        rw [foldl_digits_shift l (digitVal (Nat.digitChar (n % 10))),
          digitVal_digitChar (n % 10) (Nat.mod_lt n (by omega))]
        rfl
      rw [hc, List.length_cons, pow_succ]
      have hdm : n / 10 * (10 ^ l.length * 10) + (n % 10 * 10 ^ l.length + valOfDigits l)
          = (n / 10 * 10 + n % 10) * 10 ^ l.length + valOfDigits l := by ring
      rw [hdm, show n / 10 * 10 + n % 10 = n by omega]

/-- Reading the decimal rendering of `n` back yields `n`. -/
theorem valOfDigits_repr (n : Nat) : valOfDigits (Nat.repr n).data = n := by
  show valOfDigits (Nat.toDigits 10 n).asString.data = n
  have : (Nat.toDigits 10 n).asString.data = Nat.toDigits 10 n := rfl
  rw [this]
  show valOfDigits (Nat.toDigitsCore 10 (n + 1) n []) = n
  rw [toDigitsCore_val (n + 1) n [] (Nat.lt_succ_self n)]
  simp [valOfDigits]

/-- C3: BuildRun names generated at distinct epoch seconds are distinct, and
each name is the workload name followed by `-run-` and the decimal timestamp.
In the embedding a build attempt is identified by its inputs, and the only
attempt-varying input of the name generator is the epoch-seconds reading, so
distinct attempts receive distinct, never-reused names. -/
theorem buildRunName_fresh (t1 t2 : Nat) (h : t1 ≠ t2) :
    buildRunName t1 ≠ buildRunName t2 ∧
    buildRunName t1 = TOOL_NAME ++ "-run-" ++ toString t1 := by
  refine ⟨?_, rfl⟩
  intro heq
  have hdata : (TOOL_NAME ++ "-run-").data ++ (toString t1).data
      = (TOOL_NAME ++ "-run-").data ++ (toString t2).data := by
    have h1 := congrArg String.data heq
    simpa [buildRunName, String.data_append] using h1
  have hrepr : (Nat.repr t1).data = (Nat.repr t2).data :=
    List.append_cancel_left hdata
  have := congrArg valOfDigits hrepr
  rw [valOfDigits_repr, valOfDigits_repr] at this
  exact h this

/-- Witness for C3 at two concrete timestamps. -/
theorem buildRunName_fresh_witness :
    buildRunName 1700000000 ≠ buildRunName 1700000001 ∧
    buildRunName 1700000000 = TOOL_NAME ++ "-run-" ++ toString 1700000000 :=
  buildRunName_fresh 1700000000 1700000001 (by decide)

/-! ## Timeout versus build-failure exit paths -/

/-- C5 counterexample: the script collapses the poll timeout and the build
failure into the same process outcome.  With a BuildRun that never reaches a
terminal condition the script exits with status 1, exactly the exit status
of a failed build; no `Unknown` phase is reported to the caller. -/
theorem timeout_collapsed_into_failure_exit :
    (runScript stuckEnv 0).2 = (runScript failEnv 0).2 ∧
    (runScript stuckEnv 0).2 = 1 := by
  exact ⟨rfl, rfl⟩

/-- C5 (amended): on timeout the script prints the timeout message -- which
differs from the build-failure message -- but exits with status 1, the same
exit code as a build failure; the two outcomes are distinguishable only by
the printed message, never by the exit status, and no `Unknown` phase is
reported. -/
theorem timeout_exit_behavior (env : ClusterEnv) (now : Nat) :
    ((pollLoop env.condition).2 = PollResult.timedOut →
      Event.timeoutMsg ∈ (runScript env now).1 ∧ (runScript env now).2 = 1) ∧
    (∀ r, (pollLoop env.condition).2 = PollResult.failed r →
      Event.buildRunFailedMsg r ∈ (runScript env now).1 ∧
      Event.timeoutMsg ∉ (runScript env now).1 ∧
      (runScript env now).2 = 1) := by
  constructor
  · intro hres
    constructor
    · simp [runScript, hres]
    · simp [runScript, hres]
  · intro r hres
    refine ⟨by simp [runScript, hres], ?_, by simp [runScript, hres]⟩
    intro hmem
    rcases mem_runScript_cases env now _ hmem with
      h | h | ⟨k, h⟩ | ⟨hs, _⟩ | ⟨r', _, h⟩ | ⟨ht, _⟩
    · exact Event.noConfusion h
    · exact Event.noConfusion h
    · exact Event.noConfusion h
    · rw [hres] at hs; exact PollResult.noConfusion hs
    · exact Event.noConfusion h
    · rw [hres] at ht; exact PollResult.noConfusion ht

/-- Witness for C5's amended statement at the never-terminal cluster. -/
theorem timeout_exit_behavior_witness :
    Event.timeoutMsg ∈ (runScript stuckEnv 0).1 ∧ (runScript stuckEnv 0).2 = 1 :=
  (timeout_exit_behavior stuckEnv 0).1 (by decide)

/-! ## MCP service naming -/

/-- The in-cluster MCP URL computed by the tool detail page:
`http://{name}-mcp.{namespace}.svc.cluster.local:8000/mcp`. -/
def mcpInClusterUrl (name namespaceName : String) : String :=
  "http://" ++ name ++ "-mcp." ++ namespaceName ++ ".svc.cluster.local:8000/mcp"

/-- C6: the Service the script creates for a tool is named with the `-mcp`
suffix while the Deployment keeps the plain workload name, and the UI's
in-cluster MCP URL addresses exactly the `-mcp`-suffixed Service host. -/
theorem mcp_service_name_suffix (env : ClusterEnv) (now : Nat) :
    (∀ n, Event.createService n ∈ (runScript env now).1 → n = TOOL_NAME ++ "-mcp") ∧
    (∀ n i, Event.createDeployment n i ∈ (runScript env now).1 → n = TOOL_NAME) ∧
    (∀ nm ns, mcpInClusterUrl nm ns =
      "http://" ++ (nm ++ "-mcp") ++ "." ++ ns ++ ".svc.cluster.local:8000/mcp") := by
  refine ⟨?_, ?_, ?_⟩
  · intro n hmem
    rcases mem_runScript_cases env now _ hmem with
      h | h | ⟨k, h⟩ | ⟨_, h⟩ | ⟨r, _, h⟩ | ⟨_, h⟩
    · exact Event.noConfusion h
    · exact Event.noConfusion h
    · exact Event.noConfusion h
    · simp only [successTail, List.mem_cons, List.not_mem_nil, or_false] at h
      rcases h with h | h | h
      · exact Event.noConfusion h
      · exact (Event.createService.injEq _ _).mp h.symm ▸ by
          cases h; rfl
      · exact Event.noConfusion h
    · exact Event.noConfusion h
    · exact Event.noConfusion h
  · intro n i hmem
    rcases mem_runScript_cases env now _ hmem with
      h | h | ⟨k, h⟩ | ⟨_, h⟩ | ⟨r, _, h⟩ | ⟨_, h⟩
    · exact Event.noConfusion h
    · exact Event.noConfusion h
    · exact Event.noConfusion h
    · simp only [successTail, List.mem_cons, List.not_mem_nil, or_false] at h
      rcases h with h | h | h
      · cases h; rfl
      · exact Event.noConfusion h
      · exact Event.noConfusion h
    · exact Event.noConfusion h
    · exact Event.noConfusion h
  · intro nm ns
    unfold mcpInClusterUrl
    rw [show ("-mcp." : String) = "-mcp" ++ "." from rfl]
    simp [String.append_assoc]

/-- Witness for C6 at the concrete succeeding cluster. -/
theorem mcp_service_name_suffix_witness :
    ("weather-tool-mcp" : String) = TOOL_NAME ++ "-mcp" :=
  (mcp_service_name_suffix succEnv 0).1 "weather-tool-mcp" (by decide)

/-! ## The import form: name derivation, validation, submission

Embedding of the import page: `getNameFromPath`, `validateForm` and
`handleSubmit`.  `handleSubmit` is modelled as a pure function from the form
state to the optional create-mutation payload: `none` exactly when the
submission stops before issuing the create call. -/

/-- A service port row of the import form. -/
structure ServicePort where
  name : String
  port : Nat
  targetPort : Nat
  protocol : String
  deriving DecidableEq, Repr

/-- A `secretKeyRef`/`configMapKeyRef` entry. -/
structure KeyRef where
  name : String
  key : String
  deriving DecidableEq, Repr

/-- The `valueFrom` field of an environment variable. -/
structure EnvVarSource where
  secretKeyRef : Option KeyRef
  configMapKeyRef : Option KeyRef
  deriving DecidableEq, Repr

/-- An environment variable row of the import form. -/
structure EnvVar where
  name : String
  value : Option String
  valueFrom : Option EnvVarSource
  deriving DecidableEq, Repr

/-- `type DeploymentMethod = 'source' | 'image'`. -/
inductive DeploymentMethod where
  | source
  | image
  deriving DecidableEq, Repr

/-- The component state of the import page that `getNameFromPath`,
`validateForm` and `handleSubmit` read. -/
structure AgentImportForm where
  namespaceName : String
  name : String
  protocol : String
  framework : String
  gitUrl : String
  gitBranch : String
  gitPath : String
  selectedExample : String
  registryType : String
  registryNamespace : String
  registrySecret : String
  containerImage : String
  imageTag : String
  imagePullSecret : String
  servicePorts : List ServicePort
  envVars : List EnvVar
  workloadType : String
  deploymentMethod : DeploymentMethod
  buildStrategy : String
  dockerfile : String
  buildTimeout : String
  buildArgs : List String
  startCommand : String
  showStartCommand : Bool
  createHttpRoute : Bool
  authBridgeEnabled : Bool
  spireEnabled : Bool
  deriving Repr

/-- `getNameFromPath`: derive a workload name from the container image path
(last `/` segment, tag stripped) or from the git source path (last segment),
with underscores replaced by hyphens and lowercased. -/
def getNameFromPath (f : AgentImportForm) : String :=
  match f.deploymentMethod with
  | .image =>
    let parts := f.containerImage.splitOn "/"
    let imageName := ((parts.getLastD "").splitOn ":").headD ""
    (imageName.replace "_" "-").toLower
  | .source =>
    let path := if f.gitPath ≠ "" then f.gitPath else f.selectedExample
    if path = "" then ""
    else (((path.splitOn "/").getLastD "").replace "_" "-").toLower

/-- `const finalName = name || getNameFromPath();` -/
def finalName (f : AgentImportForm) : String :=
  if f.name ≠ "" then f.name else getNameFromPath f

/-- A character of the class `[a-z0-9]`. -/
def isDnsChar (c : Char) : Bool :=
  (Nat.ble 97 c.toNat && Nat.ble c.toNat 122) || (Nat.ble 48 c.toNat && Nat.ble c.toNat 57)

/-- The name regex of `validateForm`:
`/^[a-z0-9][a-z0-9-]*[a-z0-9]$|^[a-z0-9]$/`. -/
def matchesNameRegex (s : String) : Bool :=
  match s.data with
  | [] => false
  | [c] => isDnsChar c
  | c :: rest =>
    isDnsChar c &&
    rest.dropLast.all (fun d => isDnsChar d || d == '-') &&
    (match rest.getLast? with
     | some d => isDnsChar d
     | none => false)

/-- `validateForm` of the import page: the name (possibly auto-generated)
must be non-empty and match the name regex; for source builds the git URL,
a source path (explicit or selected example), and -- for external
registries -- a registry namespace are required; for image deployments the
container image is required.  No other field is checked. -/
def validateForm (f : AgentImportForm) : Bool :=
  let n := finalName f
  let nameOk := if n = "" then false else matchesNameRegex n
  let methodOk :=
    match f.deploymentMethod with
    | .source =>
      (f.gitUrl != "") && ((f.gitPath != "") || (f.selectedExample != "")) &&
        ((f.registryType == "local") || (f.registryNamespace != ""))
    | .image => f.containerImage != ""
  nameOk && methodOk

/-- `REGISTRY_OPTIONS` (value and url columns). -/
def registryOptions : List (String × String) :=
  [("local", "registry.cr-system.svc.cluster.local:5000"),
   ("quay", "quay.io"),
   ("dockerhub", "docker.io"),
   ("github", "ghcr.io")]

/-- `getRegistryUrl` of the import page. -/
def getRegistryUrl (f : AgentImportForm) : String :=
  match registryOptions.find? (fun r => r.1 == f.registryType) with
  | none => ""
  | some r =>
    if f.registryType == "local" then r.2
    else if f.registryNamespace ≠ "" then r.2 ++ "/" ++ f.registryNamespace
    else r.2

/-- The payload env-var filter `ev.name && (ev.value || ev.valueFrom)`
(JavaScript truthiness: the empty string is falsy). -/
def envVarKept (ev : EnvVar) : Bool :=
  (ev.name != "") &&
    ((match ev.value with
      | some v => v != ""
      | none => false) || ev.valueFrom.isSome)

/-- The argument of the create mutation. -/
structure CreatePayload where
  name : String
  namespaceName : String
  gitUrl : String
  gitPath : String
  gitBranch : String
  imageTag : String
  protocol : String
  framework : String
  envVars : List EnvVar
  workloadType : String
  deploymentMethod : DeploymentMethod
  registryUrl : Option String
  registrySecret : Option String
  startCommand : Option String
  containerImage : Option String
  imagePullSecret : Option String
  servicePorts : List ServicePort
  createHttpRoute : Bool
  authBridgeEnabled : Bool
  spireEnabled : Bool
  shipwrightBuildStrategy : Option String
  shipwrightDockerfile : Option String
  shipwrightBuildTimeout : Option String
  shipwrightBuildArgs : Option (List String)
  deriving DecidableEq, Repr

/-- The payload `handleSubmit` passes to `createMutation.mutate`, per
deployment method. -/
def submitPayload (f : AgentImportForm) : CreatePayload :=
  match f.deploymentMethod with
  | .source =>
    { name := finalName f
      namespaceName := f.namespaceName
      gitUrl := f.gitUrl
      gitPath := if f.gitPath != "" then f.gitPath else f.selectedExample
      gitBranch := f.gitBranch
      imageTag := "v0.0.1"
      protocol := f.protocol
      framework := f.framework
      envVars := f.envVars.filter envVarKept
      workloadType := f.workloadType
      deploymentMethod := DeploymentMethod.source
      registryUrl := some (getRegistryUrl f)
      registrySecret := if f.registryType != "local" then some f.registrySecret else none
      startCommand := if f.showStartCommand then some f.startCommand else none
      containerImage := none
      imagePullSecret := none
      servicePorts := f.servicePorts
      createHttpRoute := f.createHttpRoute
      authBridgeEnabled := f.authBridgeEnabled
      spireEnabled := f.spireEnabled
      shipwrightBuildStrategy := some f.buildStrategy
      shipwrightDockerfile := some f.dockerfile
      shipwrightBuildTimeout := some f.buildTimeout
      shipwrightBuildArgs := some (f.buildArgs.filter (fun a => a.trim != "")) }
  | .image =>
    { name := finalName f
      namespaceName := f.namespaceName
      gitUrl := ""
      gitPath := ""
      gitBranch := ""
      imageTag := f.imageTag
      protocol := f.protocol
      framework := f.framework
      envVars := f.envVars.filter envVarKept
      workloadType := f.workloadType
      deploymentMethod := DeploymentMethod.image
      registryUrl := none
      registrySecret := none
      startCommand := none
      containerImage := some (if f.imageTag != "" then f.containerImage ++ ":" ++ f.imageTag
        else f.containerImage)
      imagePullSecret := if f.imagePullSecret != "" then some f.imagePullSecret else none
      servicePorts := f.servicePorts
      createHttpRoute := f.createHttpRoute
      authBridgeEnabled := f.authBridgeEnabled
      spireEnabled := f.spireEnabled
      shipwrightBuildStrategy := none
      shipwrightDockerfile := none
      shipwrightBuildTimeout := none
      shipwrightBuildArgs := none }

/-- `handleSubmit`: stop (no create call) when `validateForm` fails,
otherwise issue the create mutation with the built payload. -/
def handleSubmit (f : AgentImportForm) : Option CreatePayload :=
  if validateForm f then some (submitPayload f) else none

/-- The spec's validation condition, stated from the spec's words for
comparison with the code's `validateForm`: duplicate `port` values among the
service ports. -/
def hasDuplicatePortValues (ps : List ServicePort) : Bool :=
  ps.any (fun p => Nat.ble 2 ((ps.map (fun q => q.port)).count p.port))

/-- The spec's validation condition, stated from the spec's words for
comparison with the code's `validateForm`: duplicate names among the
environment variables. -/
def hasDuplicateEnvNames (es : List EnvVar) : Bool :=
  es.any (fun e => Nat.ble 2 ((es.map (fun v => v.name)).count e.name))

/-- The rejection condition as the claim states it: invalid DNS name, or
duplicate service port values, or duplicate environment variable names. -/
def specValidationRejects (f : AgentImportForm) : Bool :=
  !matchesNameRegex (finalName f) ||
    hasDuplicatePortValues f.servicePorts ||
    hasDuplicateEnvNames f.envVars

/-- A form with a valid name and source fields but two service ports sharing
the port value 8000. -/
def dupPortForm : AgentImportForm :=
  { namespaceName := "team1"
    name := "weather-tool"
    protocol := "mcp"
    framework := "Python"
    gitUrl := "https://github.com/kagenti/agent-examples"
    gitBranch := "main"
    gitPath := "mcp/weather_tool"
    selectedExample := ""
    registryType := "local"
    registryNamespace := ""
    registrySecret := ""
    containerImage := ""
    imageTag := "latest"
    imagePullSecret := ""
    servicePorts := [{ name := "http", port := 8000, targetPort := 8000, protocol := "TCP" },
                     { name := "http2", port := 8000, targetPort := 9000, protocol := "TCP" }]
    envVars := []
    workloadType := "deployment"
    deploymentMethod := DeploymentMethod.source
    buildStrategy := "buildah-insecure-push"
    dockerfile := "Dockerfile"
    buildTimeout := "15m"
    buildArgs := []
    startCommand := "python main.py"
    showStartCommand := false
    createHttpRoute := false
    authBridgeEnabled := true
    spireEnabled := false }

/-- C4 counterexample: a request whose service ports contain a duplicate
port value -- which the claim says must fail with no create call -- is
submitted: `validateForm` does not inspect `servicePorts` or `envVars`, and
the create mutation is invoked. -/
theorem duplicate_ports_still_submitted :
    hasDuplicatePortValues dupPortForm.servicePorts = true ∧
    specValidationRejects dupPortForm = true ∧
    (handleSubmit dupPortForm).isSome = true := by
  exact ⟨rfl, rfl, rfl⟩

/-- C4 (amended): the create mutation is issued iff `validateForm` passes,
and `validateForm` passes iff the final (possibly auto-generated) name
matches the lowercase DNS-label regex and the method-specific required
fields are present (source: git URL, a source path, and a registry
namespace unless the registry is local; image: a container image).
Duplicate service-port values and duplicate environment-variable names are
not checked: validation is insensitive to `servicePorts` and `envVars`. -/
theorem submit_gating (f : AgentImportForm) :
    ((handleSubmit f).isSome ↔ validateForm f = true) ∧
    (validateForm f = true ↔
      (matchesNameRegex (finalName f) = true ∧
        ((f.deploymentMethod = DeploymentMethod.source ∧ f.gitUrl ≠ "" ∧
            (f.gitPath ≠ "" ∨ f.selectedExample ≠ "") ∧
            (f.registryType = "local" ∨ f.registryNamespace ≠ "")) ∨
          (f.deploymentMethod = DeploymentMethod.image ∧ f.containerImage ≠ "")))) ∧
    (∀ ps es, validateForm { f with servicePorts := ps, envVars := es } = validateForm f) := by
  refine ⟨?_, ?_, ?_⟩
  · by_cases h : validateForm f <;> simp [handleSubmit, h]
  · have hname : (if finalName f = "" then false else matchesNameRegex (finalName f))
        = matchesNameRegex (finalName f) := by
      by_cases h : finalName f = ""
      · rw [if_pos h, h]; rfl
      · rw [if_neg h]
    cases hdm : f.deploymentMethod with
    | source =>
      simp only [validateForm, hdm, hname, Bool.and_eq_true, Bool.or_eq_true,
        bne_iff_ne, ne_eq, beq_iff_eq]
      constructor
      · rintro ⟨hn, ⟨hg, hp⟩, hr⟩
        exact ⟨hn, Or.inl ⟨trivial, hg, hp, hr⟩⟩
      · rintro ⟨hn, ⟨_, hg, hp, hr⟩ | ⟨hbad, _⟩⟩
        · exact ⟨hn, ⟨hg, hp⟩, hr⟩
        · exact DeploymentMethod.noConfusion hbad
    | image =>
      simp only [validateForm, hdm, hname, Bool.and_eq_true, Bool.or_eq_true,
        bne_iff_ne, ne_eq, beq_iff_eq]
      constructor
      · rintro ⟨hn, hc⟩
        exact ⟨hn, Or.inr ⟨trivial, hc⟩⟩
      · rintro ⟨hn, ⟨hbad, _⟩ | ⟨_, hc⟩⟩
        · exact DeploymentMethod.noConfusion hbad
        · exact ⟨hn, hc⟩
  · intro ps es
    rfl

/-- Witness for C4's amended statement: at the duplicate-port form the
create call is issued because `validateForm` passes. -/
theorem submit_gating_witness :
    (handleSubmit dupPortForm).isSome :=
  ((submit_gating dupPortForm).1).mpr (by decide)

/-! ## Workload status normalization -/

/-- `type WorkloadType = 'deployment' | 'statefulset' | 'job'` from the UI
type definitions. -/
inductive WorkloadType where
  | deployment
  | statefulset
  | job
  deriving DecidableEq, Repr

/-- The fixed set of computed ready statuses declared for
`AgentDetail.readyStatus` in the UI type definitions. -/
inductive ReadyStatus where
  | Ready
  | NotReady
  | Progressing
  | Completed
  | Failed
  | Running
  | Pending
  | Unknown
  deriving DecidableEq, Repr

/-- A raw workload status condition (type/status/reason). -/
structure RawCondition where
  type : String
  status : String
  reason : String
  deriving DecidableEq, Repr

/-- Raw workload status as read from the cluster; optional fields model
missing/malformed input, `active` models a Job's running-pod count. -/
structure RawWorkloadStatus where
  desiredReplicas : Option Nat
  readyReplicas : Option Nat
  active : Option Nat
  conditions : List RawCondition
  deriving DecidableEq, Repr

/-- Modelled from the spec: the backend status normalizer
`normalize(workloadType, rawStatus) -> ReadyStatus` is implemented in the
backend service, which is not among the provided sources (the UI only
declares its result type and consumes `readyStatus`).  Rules follow the
spec's ordered list: a NotFound/malformed status maps to `Unknown`; for
replica workloads an in-progress `Progressing` condition wins, then
`readyReplicas >= desiredReplicas > 0` is `Ready`, then zero ready replicas
with a failing `Available` condition is `Failed`, otherwise `NotReady`; for
Jobs `Complete=True` is `Completed`, `Failed=True` is `Failed`, a running
pod is `Running`, otherwise `Pending`. -/
def normalize (workloadType : WorkloadType) (raw : Option RawWorkloadStatus) :
    ReadyStatus :=
  match raw with
  | none => ReadyStatus.Unknown
  | some s =>
    match workloadType with
    | WorkloadType.job =>
      if s.conditions.any (fun c => c.type == "Complete" && c.status == "True") then
        ReadyStatus.Completed
      else if s.conditions.any (fun c => c.type == "Failed" && c.status == "True") then
        ReadyStatus.Failed
      else if Nat.ble 1 (s.active.getD 0) then ReadyStatus.Running
      else ReadyStatus.Pending
    | _ =>
      match s.desiredReplicas, s.readyReplicas with
      | some desired, some ready =>
        if s.conditions.any (fun c =>
            c.type == "Progressing" && c.status == "True" &&
              !(c.reason == "NewReplicaSetAvailable")) then
          ReadyStatus.Progressing
        else if Nat.ble desired ready && Nat.ble 1 desired then ReadyStatus.Ready
        else if ready == 0 && s.conditions.any (fun c =>
            c.type == "Available" && c.status == "False") then
          ReadyStatus.Failed
        else ReadyStatus.NotReady
      | _, _ => ReadyStatus.Unknown

/-- An entirely absent raw status. -/
def emptyRawStatus : RawWorkloadStatus :=
  { desiredReplicas := none, readyReplicas := none, active := none, conditions := [] }

/-- C7: the status normalizer is total -- it is a function returning exactly
one value of the fixed `ReadyStatus` set for every input (so it cannot
throw), NotFound input (`none`) maps to `Unknown`, and malformed replica
input (missing replica counts on a replica workload) maps to `Unknown`. -/
theorem normalize_total (workloadType : WorkloadType) (raw : Option RawWorkloadStatus) :
    normalize workloadType raw ∈
      [ReadyStatus.Ready, ReadyStatus.Progressing, ReadyStatus.NotReady,
       ReadyStatus.Completed, ReadyStatus.Failed, ReadyStatus.Running,
       ReadyStatus.Pending, ReadyStatus.Unknown] ∧
    normalize workloadType none = ReadyStatus.Unknown ∧
    (∀ s : RawWorkloadStatus, s.desiredReplicas = none →
      workloadType ≠ WorkloadType.job →
      normalize workloadType (some s) = ReadyStatus.Unknown) := by
  refine ⟨?_, rfl, ?_⟩
  · cases normalize workloadType raw <;> simp
  · intro s hd hj
    cases workloadType with
    | job => exact absurd rfl hj
    | deployment => simp [normalize, hd]
    | statefulset => simp [normalize, hd]

/-- Witness for C7: a replica workload with a fully absent status
normalizes to `Unknown`. -/
theorem normalize_total_witness :
    normalize WorkloadType.deployment (some emptyRawStatus) = ReadyStatus.Unknown :=
  (normalize_total WorkloadType.deployment (some emptyRawStatus)).2.2
    emptyRawStatus rfl (by decide)

/-! ## Delete confirmation -/

/-- A `(namespace, name)` pair identifying a workload. -/
structure ResourceRef where
  namespaceName : String
  name : String
  deriving DecidableEq, Repr

/-- `handleDeleteConfirm` of the agent catalog page: dispatch the delete
mutation only when an agent is staged and the typed confirmation equals its
name. -/
def handleDeleteConfirmAgentCatalog (agentToDelete : Option ResourceRef)
    (deleteConfirmText : String) : Option ResourceRef :=
  match agentToDelete with
  | some a => if deleteConfirmText = a.name then some a else none
  | none => none

/-- `handleDeleteConfirm` of the tool catalog page. -/
def handleDeleteConfirmToolCatalog (toolToDelete : Option ResourceRef)
    (deleteConfirmText : String) : Option ResourceRef :=
  match toolToDelete with
  | some t => if deleteConfirmText = t.name then some t else none
  | none => none

/-- `handleDeleteConfirm` of the tool detail page: the staged resource is
the page's own `(namespace, name)` route parameters. -/
def handleDeleteConfirmToolDetail (namespaceName name deleteConfirmText : String) :
    Option ResourceRef :=
  if deleteConfirmText = name then some ⟨namespaceName, name⟩ else none

/-- C8: on each of the three pages the delete mutation is dispatched exactly
when the typed confirmation text equals the staged resource's name (string
equality), the dispatched target is that resource itself, and with no staged
resource nothing is dispatched. -/
theorem delete_requires_exact_name (r : ResourceRef) (txt ns n : String) :
    ((handleDeleteConfirmAgentCatalog (some r) txt).isSome ↔ txt = r.name) ∧
    ((handleDeleteConfirmToolCatalog (some r) txt).isSome ↔ txt = r.name) ∧
    ((handleDeleteConfirmToolDetail ns n txt).isSome ↔ txt = n) ∧
    (∀ c, handleDeleteConfirmAgentCatalog (some r) txt = some c → c = r) ∧
    (∀ c, handleDeleteConfirmToolCatalog (some r) txt = some c → c = r) ∧
    (∀ c, handleDeleteConfirmToolDetail ns n txt = some c → c = ⟨ns, n⟩) ∧
    handleDeleteConfirmAgentCatalog none txt = none ∧
    handleDeleteConfirmToolCatalog none txt = none := by
  by_cases h : txt = r.name <;> by_cases h2 : txt = n <;>
    simp [handleDeleteConfirmAgentCatalog, handleDeleteConfirmToolCatalog,
      handleDeleteConfirmToolDetail, h, h2]

/-- Witness for C8: the exact name dispatches the delete of that resource. -/
theorem delete_requires_exact_name_witness :
    (handleDeleteConfirmToolCatalog (some ⟨"team1", "weather-tool"⟩) "weather-tool").isSome :=
  ((delete_requires_exact_name ⟨"team1", "weather-tool"⟩ "weather-tool" "team1"
    "weather-tool").2.1).mpr rfl

/-! ## Tool detail page polling policy -/

/-- `refetchInterval` of the tool detail status query.  The input is the
query's last data (`none` before the first success) and its optional
`readyStatus` field; `readyStatus || two-pipes ''` leaves every string
unchanged except that a missing value becomes the empty string.  `none`
models returning `false` (stop polling); `some 5000` is the 5-second
interval. -/
def refetchInterval (data : Option (Option String)) : Option Nat :=
  let readyStatus :=
    match data with
    | some (some s) => s
    | _ => ""
  if readyStatus = "Ready" then none else some 5000

/-- C9: polling stops exactly when the fetched `readyStatus` is `Ready`;
every other status -- including the terminal `Failed` -- keeps the 5000 ms
interval, so a failed tool is polled indefinitely. -/
theorem refetch_policy (d : Option (Option String)) :
    (refetchInterval d = none ↔ d = some (some "Ready")) ∧
    (d ≠ some (some "Ready") → refetchInterval d = some 5000) ∧
    refetchInterval (some (some "Failed")) = some 5000 := by
  refine ⟨?_, ?_, rfl⟩
  · match d with
    | none => simp [refetchInterval]
    | some none => simp [refetchInterval]
    | some (some rs) =>
      by_cases h : rs = "Ready" <;> simp [refetchInterval, h]
  · intro hne
    match d with
    | none => rfl
    | some none => rfl
    | some (some rs) =>
      have h : rs ≠ "Ready" := fun hrs => hne (by rw [hrs])
      simp [refetchInterval, h]

/-- Witness for C9: a tool stuck in `Failed` keeps being polled. -/
theorem refetch_policy_witness :
    refetchInterval (some (some "Failed")) = some 5000 :=
  (refetch_policy (some (some "Failed"))).2.1 (by decide)

/-! ## Environment variable import -/

/-- `handleImportEnvVars`: merge imported variables with the existing ones,
skipping any import whose name already exists. -/
def handleImportEnvVars (envVars importedVars : List EnvVar) : List EnvVar :=
  let existingNames := envVars.map (fun v => v.name)
  let newVars := importedVars.filter (fun v => !(existingNames.contains v.name))
  envVars ++ newVars

/-- C10: importing never modifies or reorders the existing variables -- the
result is exactly the existing list followed by those imported entries whose
name is not already present -- and importing the same list a second time
changes nothing. -/
theorem import_env_vars_noclobber (xs ys : List EnvVar) :
    handleImportEnvVars xs ys =
      xs ++ ys.filter (fun v => !((xs.map (fun w => w.name)).contains v.name)) ∧
    handleImportEnvVars (handleImportEnvVars xs ys) ys = handleImportEnvVars xs ys := by
  refine ⟨rfl, ?_⟩
  have key : ∀ v ∈ ys,
      ((handleImportEnvVars xs ys).map (fun w => w.name)).contains v.name = true := by
    intro v hv
    have hmem : v.name ∈ (handleImportEnvVars xs ys).map (fun w => w.name) := by
      by_cases hx : v.name ∈ xs.map (fun w => w.name)
      · simp only [handleImportEnvVars, List.map_append, List.mem_append]
        exact Or.inl hx
      · have hv1 : v ∈ ys.filter (fun v => !((xs.map (fun w => w.name)).contains v.name)) := by
          rw [List.mem_filter]
          exact ⟨hv, by simp [hx]⟩
        simp only [handleImportEnvVars, List.map_append, List.mem_append]
        exact Or.inr (List.mem_map.2 ⟨v, hv1, rfl⟩)
    simpa using hmem
  have hnil : ys.filter
      (fun v => !(((handleImportEnvVars xs ys).map (fun w => w.name)).contains v.name)) = [] := by
    rw [List.filter_eq_nil_iff]
    intro v hv
    rw [key v hv]
    decide
  show handleImportEnvVars xs ys ++ _ = handleImportEnvVars xs ys
  rw [hnil, List.append_nil]

end Kagenti
